import Mathlib

/-!
# Verification of the `ax` agent-composition and generation-loop core

Shallow embedding of the repository's core:

* `src/unnamed/part_000` — agent composition: `processChildAgentFunction`,
  `addModelParameter`, `removePropertiesFromSchema`, `pick`, and the
  `AxAgent` constructor validation.
* `src/src/text/text.ts` — the generation loop of `AIPrompt`:
  `_generateHandler`'s syntax-repair retry loop, `_generateWithFunctions`'
  bounded step loop, and the configuration effect of a run.

JavaScript objects are embedded as ordered association lists
(`List (String × _)`), matching JS insertion-order semantics of
`Object.keys`, `delete`, and object spread.  External collaborators
(the structured-output codec, the completion service, the function-call
executor) are taken as oracle parameters, following the narrow interfaces
the code consumes them through.
-/

set_option autoImplicit false

namespace Ax

/-- One entry of `AxAIModelList` (`{ key, model, description }`). -/
structure AxModelEntry where
  key : String
  model : String
  description : String
deriving DecidableEq, Repr

/-- `AxFunctionJSONSchema`: a JSON-schema node
`{ type, properties?, required?, enum?, description? }`, with `properties`
an ordered string-keyed map (embedded as an association list). -/
inductive SchemaNode : Type where
  | node (ty : String)
      (properties : Option (List (String × SchemaNode)))
      (required : Option (List String))
      (enum : Option (List String))
      (description : Option String) : SchemaNode

/-- The `type` field of a schema node. -/
def SchemaNode.ty : SchemaNode → String
  | .node t _ _ _ _ => t

/-- The `properties` field of a schema node. -/
def SchemaNode.properties : SchemaNode → Option (List (String × SchemaNode))
  | .node _ p _ _ _ => p

/-- The `required` field of a schema node. -/
def SchemaNode.required : SchemaNode → Option (List String)
  | .node _ _ r _ _ => r

/-- The `enum` field of a schema node. -/
def SchemaNode.enumVals : SchemaNode → Option (List String)
  | .node _ _ _ e _ => e

/-- The `description` field of a schema node. -/
def SchemaNode.descr : SchemaNode → Option String
  | .node _ _ _ _ d => d

/-- `Object.keys(schema.properties ?? {})`: the property names of a node,
in insertion order. -/
def SchemaNode.propNames (s : SchemaNode) : List String :=
  (s.properties.getD []).map (·.1)

/-- `removePropertiesFromSchema(schema, keys)` (part_000 lines 426–447):
clones the schema, `delete`s every key of `keys` from `properties`
(insertion order of the survivors preserved), and filters `required`
down to the entries not in `keys`.  `structuredClone` is the identity in
a pure embedding. -/
def removePropertiesFromSchema (schema : SchemaNode) (keys : List String) :
    SchemaNode :=
  .node schema.ty
    (schema.properties.map (fun ps => ps.filter (fun p => ¬ p.1 ∈ keys)))
    (schema.required.map (fun rs => rs.filter (fun r => ¬ r ∈ keys)))
    schema.enumVals schema.descr

/-- The `modelProperty` schema built by `addModelParameter`
(part_000 lines 394–403): a string-typed enum over the model keys with a
generated description. -/
def modelProperty (models : List AxModelEntry) : SchemaNode :=
  .node "string" none none
    (some (models.map (·.key)))
    (some ("The AI model to use for this function call. Available options: "
      ++ String.intercalate ", "
          (models.map (fun m => "`" ++ m.key ++ "` " ++ m.description))))

/-- `addModelParameter(parameters, models)` (part_000 lines 375–420):
starts from a clone of `parameters`, or the base schema
`{type: 'object', properties: {}, required: []}` when `parameters` is
`undefined`; returns it unchanged when a `model` property already exists;
otherwise spreads a `model` enum property onto `properties` (appended,
since absent) and appends `'model'` to `required`. -/
def addModelBase (parameters : Option SchemaNode) : SchemaNode :=
  parameters.getD (.node "object" (some []) (some []) none none)

def addModelParameter (parameters : Option SchemaNode)
    (models : List AxModelEntry) : SchemaNode :=
  if "model" ∈ (addModelBase parameters).propNames then
    addModelBase parameters
  else
    .node (addModelBase parameters).ty
      (some ((addModelBase parameters).properties.getD []
        ++ [("model", modelProperty models)]))
      (some ((addModelBase parameters).required.getD [] ++ ["model"]))
      (addModelBase parameters).enumVals (addModelBase parameters).descr

/-- JS property lookup on an object embedded as an ordered association
list: `key in obj ? obj[key] : undefined`, first entry wins. -/
def objLookup {V : Type} (k : String) : List (String × V) → Option V
  | [] => none
  | p :: rest => if p.1 = k then some p.2 else objLookup k rest

/-- JS object spread `{...a, ...b}`: keys of `a` in order with `b`'s value
when `b` also has the key, followed by the keys of `b` not in `a`, in
`b`'s order. -/
def spreadMerge {V : Type} (a b : List (String × V)) : List (String × V) :=
  a.map (fun p => (p.1, (objLookup p.1 b).getD p.2))
    ++ b.filter (fun q => (objLookup q.1 a).isNone)

/-- `pick(obj, keys)` (part_000 lines 453–464): for each key of `keys`
that is present in `obj` (`key in obj`), copy its value; keys absent from
`obj` contribute nothing. -/
def pick {V : Type} (obj : List (String × V)) (keys : List String) :
    List (String × V) :=
  keys.filterMap (fun k => (objLookup k obj).map (fun v => (k, v)))

/-- `AxFunction`: `{ name, description, parameters?, func }`, with the
argument object embedded as an association list over an abstract value
type `V`, abstract runtime options `O` and abstract result type `R`. -/
structure AxFunction (V O R : Type) where
  name : String
  description : String
  parameters : Option SchemaNode
  func : List (String × V) → O → R

/-- The options record passed to `processChildAgentFunction`
(part_000 lines 53–58). -/
structure ProcessOptions where
  debug : Bool
  disableSmartModelRouting : Bool
  excludeFieldsFromPassthrough : List String
  canConfigureSmartModelRouting : Bool

/-- `childKeys` (part_000 lines 64–66): the property names of the child's
parameter schema. -/
def childKeysOf (params : SchemaNode) : List String :=
  params.propNames

/-- `commonKeys` (part_000 lines 69–71): parent input keys also among the
child keys, excluding the literal `'model'`. -/
def commonKeysOf (parentInputKeys : List String) (params : SchemaNode) :
    List String :=
  (parentInputKeys.filter (fun k => k ∈ childKeysOf params)).filter
    (fun k => k ≠ "model")

/-- `injectionKeys` (part_000 lines 72–74): common keys minus the
passthrough exclusions. -/
def injectionKeysOf (parentInputKeys : List String) (params : SchemaNode)
    (excludeFieldsFromPassthrough : List String) : List String :=
  (commonKeysOf parentInputKeys params).filter
    (fun k => ¬ k ∈ excludeFieldsFromPassthrough)

/-- The branch of `processChildAgentFunction` taken when the child has a
parameter schema (part_000 lines 63–102): when `injectionKeys` is
non-empty the schema is projected and the invocation wrapped with the
spread `{...childArgs, ...pick(parentValues, injectionKeys)}`; either
way the branch RETURNS (line 101), never falling through to routing. -/
def processWithParams {V O R : Type} (childFunction : AxFunction V O R)
    (parentValues : List (String × V)) (parentInputKeys : List String)
    (options : ProcessOptions) (params : SchemaNode) : AxFunction V O R :=
  if 0 < (injectionKeysOf parentInputKeys params
      options.excludeFieldsFromPassthrough).length then
    { childFunction with
      parameters := some (removePropertiesFromSchema params
        (injectionKeysOf parentInputKeys params
          options.excludeFieldsFromPassthrough))
      func := fun childArgs funcOptions =>
        childFunction.func
          (spreadMerge childArgs (pick parentValues
            (injectionKeysOf parentInputKeys params
              options.excludeFieldsFromPassthrough)))
          funcOptions }
  else
    childFunction

/-- The branch of `processChildAgentFunction` reached when the child has
no parameter schema (part_000 lines 104–116): smart model routing.  A
model list is truthy in JS even when empty. -/
def processNoParams {V O R : Type} (childFunction : AxFunction V O R)
    (modelList : Option (List AxModelEntry)) (options : ProcessOptions) :
    AxFunction V O R :=
  match modelList with
  | some models =>
    if !options.disableSmartModelRouting
        && options.canConfigureSmartModelRouting then
      { childFunction with parameters := some (addModelParameter none models) }
    else childFunction
  | none => childFunction

/-- `processChildAgentFunction` (part_000 lines 48–117).  When the child
function has a parameter schema, the injection branch runs and the
function RETURNS inside that `if` block (line 101); the
smart-model-routing branch (lines 104–114) is reached only when
`parameters` is `undefined`.  The `process.stdout.write` debug line is an
output-only side effect and has no bearing on the returned value. -/
def processChildAgentFunction {V O R : Type} (childFunction : AxFunction V O R)
    (parentValues : List (String × V)) (parentInputKeys : List String)
    (modelList : Option (List AxModelEntry)) (options : ProcessOptions) :
    AxFunction V O R :=
  match childFunction.parameters with
  | some params =>
    processWithParams childFunction parentValues parentInputKeys options params
  | none =>
    processNoParams childFunction modelList options

/-- The `AxAgent` constructor validation (part_000 lines 167–177):
`!name || name.length < 5` throws the name error (whose message text
names the `name` field), then `!description || description.length < 20`
throws the description error.  `''` is falsy, and has length `0 < 5`
anyway, so each guard reduces to the length test. -/
def validateAgentConstruction (name description : String) :
    Except String Unit :=
  if name = "" ∨ name.length < 5 then
    .error ("Agent name must be at least 10 characters (more descriptive): "
      ++ name)
  else if description = "" ∨ description.length < 20 then
    .error ("Agent description must be at least 20 characters (explain in detail what the agent does): "
      ++ description)
  else
    .ok ()

/-- JS `String.prototype.trim()`: strips leading and trailing whitespace.
(Embedded over the character list so that concrete evaluation reduces.) -/
def jsTrim (s : String) : String :=
  String.mk
    (((s.data.dropWhile Char.isWhitespace).reverse.dropWhile
      Char.isWhitespace).reverse)

/-- The record returned by the `processFunction` collaborator
(text.ts line 211; interface per spec §6): which callable was invoked and
its output (`result` may be `undefined`). -/
structure FuncExec where
  name : String
  result : Option String

/-- The syntax-repair retry loop of `_generateHandler`
(text.ts lines 136–175), embedded structurally on the remaining
iteration count (`remaining = retryCount - i` at entry).  `decode` is the
structured-output codec oracle, indexed by the decode-call count;
`fixResponse` is the completion-service oracle for the `fixSyntax` call
(text.ts lines 259–275), indexed by the fix-call count, yielding
`res.results.at(0)?.text`.  Accumulates the trace's `parsingError`
records `(error, data)` and the number of `fixSyntax` completion calls.

Faithful to the source control flow: on decode failure the error is
recorded; while `i < retryCount - 1` the loop `continue`s — re-decoding
the SAME `value` — and only on the last iteration does it call
`fixSyntax`, whose (trimmed, emptiness-checked) response is assigned to
`value` right before the loop exits and throws
"Unable to fix result syntax". -/
def syntaxRepairLoop {T : Type} (decode : Nat → String → Except String T)
    (fixResponse : Nat → Option String) (retryCount : Nat) :
    Nat → Nat → String → List (String × String) → Nat →
      Except String T × List (String × String) × Nat
  | 0, _, _, parsingErrors, fixCalls =>
      (.error "Unable to fix result syntax", parsingErrors, fixCalls)
  | remaining + 1, i, value, parsingErrors, fixCalls =>
    match decode i value with
    | .ok v => (.ok v, parsingErrors, fixCalls)
    | .error e =>
      let parsingErrors' := parsingErrors ++ [(e, value)]
      if i < retryCount - 1 then
        syntaxRepairLoop decode fixResponse retryCount remaining (i + 1)
          value parsingErrors' fixCalls
      else
        let fixedValue := ((fixResponse fixCalls).map jsTrim).getD ""
        if fixedValue.length = 0 then
          (.error "Empty response received", parsingErrors', fixCalls + 1)
        else
          syntaxRepairLoop decode fixResponse retryCount remaining (i + 1)
            fixedValue parsingErrors' (fixCalls + 1)

/-- The decode/repair phase of `_generateHandler` on an initial raw
`value`, with the source's `retryCount = 3` (text.ts line 136). -/
def generateHandlerRepair {T : Type} (decode : Nat → String → Except String T)
    (fixResponse : Nat → Option String) (value : String) :
    Except String T × List (String × String) × Nat :=
  syntaxRepairLoop decode fixResponse 3 3 0 value [] 0

/-- `res.results.at(0)?.text?.trim() ?? ''` for step `i` of the loop
(text.ts line 201), over the completion-service oracle `responses`. -/
def stepValue (responses : Nat → Option String) (i : Nat) : String :=
  ((responses i).map jsTrim).getD ""

/-- The JS duplicate guard `previousValue && value === previousValue`
(text.ts line 203): an `undefined` or empty previous value is falsy. -/
def dupCheck (previousValue : Option String) (value : String) : Bool :=
  match previousValue with
  | some pv => pv != "" && value == pv
  | none => false

/-- The memory entry `['\n', value, '\nResult: ', funcExec.result].join('')`
(text.ts lines 213–214); an `undefined` result joins as the empty
string. -/
def memEntry (value : String) (funcExec : FuncExec) : String :=
  String.join ["\n", value, "\nResult: ", funcExec.result.getD ""]

/-- The bounded step loop of `_generateWithFunctions`
(text.ts lines 196–232), embedded structurally on the remaining step
count (`remaining = maxSteps - i` at entry).  `responses` is the
completion-service oracle yielding `res.results.at(0)?.text` for step
`i`; `processFn` is the function-execution collaborator.  Tracks
`previousValue`, the memory log, and the trace's executed-function list.
`localeCompare(..) === 0` against `'finalResult'` is string equality. -/
def genFnLoop (responses : Nat → Option String)
    (processFn : Nat → String → FuncExec) (maxSteps : Nat) :
    Nat → Nat → Option String → List String → List FuncExec →
      Except String (String × List String × List FuncExec)
  | 0, _, _, _, _ => .error ("max " ++ toString maxSteps ++ " steps allowed")
  | remaining + 1, i, previousValue, mem, execs =>
    if dupCheck previousValue (stepValue responses i) then
      .error "Duplicate response received"
    else if (stepValue responses i).length = 0 then
      .error "Empty response received"
    else if (processFn i (stepValue responses i)).name = "finalResult" then
      .ok ((processFn i (stepValue responses i)).result.getD "",
        mem ++ [memEntry (stepValue responses i)
          (processFn i (stepValue responses i))],
        execs ++ [processFn i (stepValue responses i)])
    else
      genFnLoop responses processFn maxSteps remaining (i + 1)
        (some (stepValue responses i))
        (mem ++ [memEntry (stepValue responses i)
          (processFn i (stepValue responses i))])
        (execs ++ [processFn i (stepValue responses i)])

/-- One run of `_generateWithFunctions` from a fresh start: step index 0,
no previous value, memory and trace as given by the caller (empty for a
fresh `Memory`). -/
def generateWithFunctions (responses : Nat → Option String)
    (processFn : Nat → String → FuncExec) (maxSteps : Nat) :
    Except String (String × List String × List FuncExec) :=
  genFnLoop responses processFn maxSteps maxSteps 0 none [] []

/-- A stored function declaration of `PromptConfig.functions`
(name, description and parameter schema; invocation irrelevant here). -/
structure FuncDecl where
  name : String
  description : String
  parameters : Option SchemaNode

/-- Modelled from the spec: `finalResultFunc` is imported from
`./functions.js`, which is not among the provided sources.  Spec §4.4:
"A schema-derived synthetic 'final result' callable is auto-appended
whenever an output shape is declared"; §6 names the distinguished
callable `finalResult`.  Only its identity as the one entry appended per
call matters for the theorems below. -/
def finalResultFunc (schema : SchemaNode) : FuncDecl :=
  { name := "finalResult"
    description := "Returns the final result"
    parameters := some schema }

/-- The stored `PromptConfig` of an `AIPrompt` (text.ts lines 29–41),
restricted to the fields the core reads: `stopSequences`,
`functions`, `responseConfig.keyValue`, `responseConfig.schema`
(flattened), and `debug`. -/
structure PromptConfig where
  stopSequences : List String
  functions : Option (List FuncDecl)
  responseKeyValue : Bool
  responseSchema : Option SchemaNode
  debug : Bool

/-- `functionsSchema()` (text.ts lines 51–57) builds its list from a COPY
(`[...(this.conf.functions ?? [])]`) before pushing the synthetic
`finalResult` entry, so it never touches the stored configuration. -/
def functionsSchemaList (c : PromptConfig) : List FuncDecl :=
  match c.responseSchema with
  | some schema => (c.functions.getD []) ++ [finalResultFunc schema]
  | none => c.functions.getD []

/-- The SchemaNode invariant of spec §3: every required name is among the
property names. -/
def requiredSubset (s : SchemaNode) : Prop :=
  ∀ r ∈ s.required.getD [], r ∈ s.propNames

/-- The effect of one `_generateWithFunctions` call on the STORED prompt
configuration (text.ts lines 184–194): `const conf = { ...this.conf,
stopSequences: [...] }` copies the record shallowly, so `conf.functions`
is the very array stored in `this.conf`; when a response schema is
declared, `functions.push(finalResultFunc(schema))` therefore appends to
the stored array whenever it exists.  When `this.conf.functions` is
`undefined`, `conf.functions ?? []` is a fresh array and the stored
configuration is untouched; no other stored field is written. -/
def runWithFunctionsConfEffect (c : PromptConfig) : PromptConfig :=
  match c.responseSchema, c.functions with
  | some schema, some fs =>
      { c with functions := some (fs ++ [finalResultFunc schema]) }
  | _, _ => c

/-! ## Helper lemmas -/

@[simp] theorem SchemaNode.ty_node (t : String)
    (p : Option (List (String × SchemaNode))) (r e : Option (List String))
    (d : Option String) : (SchemaNode.node t p r e d).ty = t := rfl

@[simp] theorem SchemaNode.properties_node (t : String)
    (p : Option (List (String × SchemaNode))) (r e : Option (List String))
    (d : Option String) : (SchemaNode.node t p r e d).properties = p := rfl

@[simp] theorem SchemaNode.required_node (t : String)
    (p : Option (List (String × SchemaNode))) (r e : Option (List String))
    (d : Option String) : (SchemaNode.node t p r e d).required = r := rfl

@[simp] theorem SchemaNode.enumVals_node (t : String)
    (p : Option (List (String × SchemaNode))) (r e : Option (List String))
    (d : Option String) : (SchemaNode.node t p r e d).enumVals = e := rfl

@[simp] theorem SchemaNode.descr_node (t : String)
    (p : Option (List (String × SchemaNode))) (r e : Option (List String))
    (d : Option String) : (SchemaNode.node t p r e d).descr = d := rfl

theorem SchemaNode.eta (s : SchemaNode) :
    SchemaNode.node s.ty s.properties s.required s.enumVals s.descr = s := by
  cases s
  rfl

theorem map_fst_filter_keys {β : Type} (ps : List (String × β))
    (keys : List String) :
    (ps.filter (fun p => ¬ p.1 ∈ keys)).map (fun x => x.1)
      = (ps.map (fun x => x.1)).filter (fun k => ¬ k ∈ keys) := by
  induction ps with
  | nil => rfl
  | cons p rest ih =>
    by_cases hp : p.1 ∈ keys
    · simpa [hp] using ih
    · simpa [hp] using ih

theorem propNames_removePropertiesFromSchema (s : SchemaNode)
    (keys : List String) :
    (removePropertiesFromSchema s keys).propNames
      = s.propNames.filter (fun k => ¬ k ∈ keys) := by
  unfold removePropertiesFromSchema SchemaNode.propNames
  cases s.properties with
  | none => simp
  | some ps =>
    simp only [SchemaNode.properties_node, Option.map_some, Option.getD_some]
    exact map_fst_filter_keys ps keys

theorem not_mem_propNames_removePropertiesFromSchema (s : SchemaNode)
    (keys : List String) (k : String) (hk : k ∈ keys) :
    ¬ k ∈ (removePropertiesFromSchema s keys).propNames := by
  rw [propNames_removePropertiesFromSchema]
  intro hmem
  rcases List.mem_filter.mp hmem with ⟨-, hdec⟩
  simp only [decide_not, Bool.not_eq_eq_eq_not, Bool.not_true,
    decide_eq_false_iff_not] at hdec
  exact hdec hk

theorem mem_propNames_removePropertiesFromSchema (s : SchemaNode)
    (keys : List String) (k : String) (hk : k ∈ s.propNames)
    (hnk : ¬ k ∈ keys) :
    k ∈ (removePropertiesFromSchema s keys).propNames := by
  rw [propNames_removePropertiesFromSchema]
  exact List.mem_filter.mpr ⟨hk, by simp [hnk]⟩

theorem addModelParameter_of_mem_model (s : SchemaNode)
    (models : List AxModelEntry) (h : "model" ∈ s.propNames) :
    addModelParameter (some s) models = s := by
  have hb : addModelBase (some s) = s := rfl
  unfold addModelParameter
  rw [hb, if_pos h]

theorem mem_model_addModelParameter (parameters : Option SchemaNode)
    (models : List AxModelEntry) :
    "model" ∈ (addModelParameter parameters models).propNames := by
  unfold addModelParameter
  by_cases h : "model" ∈ (addModelBase parameters).propNames
  · rwa [if_pos h]
  · rw [if_neg h]
    unfold SchemaNode.propNames
    simp

theorem objLookup_map_value {V W : Type} (h : String → V → W)
    (a : List (String × V)) (k : String) :
    objLookup k (a.map (fun p => (p.1, h p.1 p.2)))
      = (objLookup k a).map (h k) := by
  induction a with
  | nil => rfl
  | cons p rest ih =>
    by_cases hk : p.1 = k
    · subst hk
      simp [objLookup]
    · simp [objLookup, hk, ih]

theorem objLookup_append_left {V : Type} {a : List (String × V)} {k : String}
    {v : V} (h : objLookup k a = some v) (b : List (String × V)) :
    objLookup k (a ++ b) = some v := by
  induction a with
  | nil => exact Option.noConfusion h
  | cons p rest ih =>
    by_cases hk : p.1 = k
    · simp only [objLookup, hk, if_pos] at h ⊢
      exact h
    · simp only [objLookup, hk, if_neg, List.cons_append, ite_false] at h ⊢
      exact ih h

theorem objLookup_append_right {V : Type} {a : List (String × V)} {k : String}
    (h : objLookup k a = none) (b : List (String × V)) :
    objLookup k (a ++ b) = objLookup k b := by
  induction a with
  | nil => rfl
  | cons p rest ih =>
    by_cases hk : p.1 = k
    · simp only [objLookup, hk, if_pos] at h
      exact Option.noConfusion h
    · simp only [objLookup, hk, if_neg, List.cons_append, ite_false] at h ⊢
      exact ih h

theorem objLookup_filter_isNone {V : Type} (a b : List (String × V))
    (k : String) (h : objLookup k a = none) :
    objLookup k (b.filter (fun q => (objLookup q.1 a).isNone))
      = objLookup k b := by
  induction b with
  | nil => rfl
  | cons q rest ih =>
    by_cases hk : q.1 = k
    · subst hk
      have hq : (objLookup q.1 a).isNone = true := by rw [h]; rfl
      simp [List.filter_cons, hq, objLookup]
    · cases hq : (objLookup q.1 a).isNone with
      | true => simp [List.filter_cons, hq, objLookup, hk, ih]
      | false => simp [List.filter_cons, hq, objLookup, hk, ih]

/-- Lookup after JS spread: the update object wins where it has the key,
the base object's value survives elsewhere. -/
theorem objLookup_spreadMerge {V : Type} (a b : List (String × V))
    (k : String) :
    objLookup k (spreadMerge a b)
      = match objLookup k b with
        | some v => some v
        | none => objLookup k a := by
  unfold spreadMerge
  cases ha : objLookup k a with
  | some v =>
    have hmap : objLookup k
        (a.map (fun p => (p.1, (objLookup p.1 b).getD p.2)))
          = some ((objLookup k b).getD v) := by
      rw [objLookup_map_value (fun key val => (objLookup key b).getD val) a k,
        ha]
      rfl
    rw [objLookup_append_left hmap]
    cases hb : objLookup k b <;> simp
  | none =>
    have hmap : objLookup k
        (a.map (fun p => (p.1, (objLookup p.1 b).getD p.2))) = none := by
      rw [objLookup_map_value (fun key val => (objLookup key b).getD val) a k,
        ha]
      rfl
    rw [objLookup_append_right hmap, objLookup_filter_isNone a b k ha]
    cases hb : objLookup k b <;> simp

/-- Lookup in a `pick`: present exactly for listed keys that the source
object actually has. -/
theorem objLookup_pick {V : Type} (obj : List (String × V))
    (keys : List String) (k : String) :
    objLookup k (pick obj keys)
      = if k ∈ keys then objLookup k obj else none := by
  induction keys with
  | nil => simp [pick, objLookup]
  | cons k0 rest ih =>
    by_cases hk : k0 = k
    · subst hk
      cases h0 : objLookup k0 obj with
      | none =>
        have hp : pick obj (k0 :: rest) = pick obj rest := by
          simp [pick, List.filterMap_cons, h0]
        rw [hp, ih]
        by_cases hr : k0 ∈ rest
        · simp [hr, h0]
        · simp [hr, h0]
      | some v0 =>
        have hp : pick obj (k0 :: rest) = (k0, v0) :: pick obj rest := by
          simp [pick, List.filterMap_cons, h0]
        rw [hp]
        simp [objLookup, h0]
    · have hstep : objLookup k (pick obj (k0 :: rest))
          = objLookup k (pick obj rest) := by
        cases h0 : objLookup k0 obj with
        | none => simp [pick, List.filterMap_cons, h0]
        | some v0 => simp [pick, List.filterMap_cons, h0, objLookup, hk]
      have hne : ¬ k = k0 := fun hkk => hk hkk.symm
      rw [hstep, ih]
      by_cases hr : k ∈ rest
      · simp [hr, hne]
      · simp [hr, hne]

theorem processChildAgentFunction_some {V O R : Type}
    {childFunction : AxFunction V O R} {params : SchemaNode}
    (parentValues : List (String × V)) (parentInputKeys : List String)
    (modelList : Option (List AxModelEntry)) (options : ProcessOptions)
    (hp : childFunction.parameters = some params) :
    processChildAgentFunction childFunction parentValues parentInputKeys
        modelList options
      = processWithParams childFunction parentValues parentInputKeys options
          params := by
  unfold processChildAgentFunction
  rw [hp]

theorem processChildAgentFunction_none {V O R : Type}
    {childFunction : AxFunction V O R}
    (parentValues : List (String × V)) (parentInputKeys : List String)
    (modelList : Option (List AxModelEntry)) (options : ProcessOptions)
    (hp : childFunction.parameters = none) :
    processChildAgentFunction childFunction parentValues parentInputKeys
        modelList options
      = processNoParams childFunction modelList options := by
  unfold processChildAgentFunction
  rw [hp]

theorem processWithParams_pos {V O R : Type}
    (childFunction : AxFunction V O R) (parentValues : List (String × V))
    (parentInputKeys : List String) (options : ProcessOptions)
    (params : SchemaNode)
    (hne : injectionKeysOf parentInputKeys params
      options.excludeFieldsFromPassthrough ≠ []) :
    processWithParams childFunction parentValues parentInputKeys options
        params
      = { childFunction with
          parameters := some (removePropertiesFromSchema params
            (injectionKeysOf parentInputKeys params
              options.excludeFieldsFromPassthrough))
          func := fun childArgs funcOptions =>
            childFunction.func
              (spreadMerge childArgs (pick parentValues
                (injectionKeysOf parentInputKeys params
                  options.excludeFieldsFromPassthrough)))
              funcOptions } := by
  unfold processWithParams
  rw [if_pos (List.length_pos.mpr hne)]

theorem processWithParams_neg {V O R : Type}
    (childFunction : AxFunction V O R) (parentValues : List (String × V))
    (parentInputKeys : List String) (options : ProcessOptions)
    (params : SchemaNode)
    (he : injectionKeysOf parentInputKeys params
      options.excludeFieldsFromPassthrough = []) :
    processWithParams childFunction parentValues parentInputKeys options
        params = childFunction := by
  unfold processWithParams
  rw [if_neg (by simp [he])]

/-! ## C5 — `removePropertiesFromSchema` -/

/-- C5: `removeFields` projects `required` to exactly the original
`required` minus the listed keys, leaves no listed key in `properties`,
is a no-op for keys absent from the shape (in particular
`removeFields(shape, [])` is the identity), and — being a total Lean
function — never errors. -/
theorem removePropertiesFromSchema_spec :
    (∀ (s : SchemaNode) (keys : List String),
      (removePropertiesFromSchema s keys).required
        = s.required.map (fun rs => rs.filter (fun r => ¬ r ∈ keys)))
  ∧ (∀ (s : SchemaNode) (keys : List String) (k : String), k ∈ keys →
      ¬ k ∈ (removePropertiesFromSchema s keys).propNames)
  ∧ (∀ (s : SchemaNode) (keys : List String),
      (∀ k, k ∈ keys → ¬ k ∈ s.propNames ∧ ¬ k ∈ s.required.getD []) →
      removePropertiesFromSchema s keys = s)
  ∧ (∀ s : SchemaNode, removePropertiesFromSchema s [] = s) := by
  refine ⟨fun s keys => rfl, not_mem_propNames_removePropertiesFromSchema,
    ?_, ?_⟩
  · intro s keys habsent
    have hp : s.properties.map
        (fun ps => ps.filter (fun p => ¬ p.1 ∈ keys)) = s.properties := by
      cases hps : s.properties with
      | none => rfl
      | some ps =>
        show some (ps.filter (fun p => ¬ p.1 ∈ keys)) = some ps
        refine congrArg some (List.filter_eq_self.mpr (fun p hmem => ?_))
        have hnk : p.1 ∉ keys := by
          intro hkeys
          refine (habsent p.1 hkeys).1 ?_
          unfold SchemaNode.propNames
          rw [hps]
          simpa using List.mem_map_of_mem (fun x => x.1) hmem
        simp [hnk]
    have hr : s.required.map
        (fun rs => rs.filter (fun r => ¬ r ∈ keys)) = s.required := by
      cases hrs : s.required with
      | none => rfl
      | some rs =>
        show some (rs.filter (fun r => ¬ r ∈ keys)) = some rs
        refine congrArg some (List.filter_eq_self.mpr (fun r hmem => ?_))
        have hnk : r ∉ keys := by
          intro hkeys
          refine (habsent r hkeys).2 ?_
          rw [hrs]
          simpa using hmem
        simp [hnk]
    unfold removePropertiesFromSchema
    rw [hp, hr]
    exact SchemaNode.eta s
  · intro s
    unfold removePropertiesFromSchema
    simp [SchemaNode.eta]

/-- Witness for `removePropertiesFromSchema_spec` at concrete schemas:
a listed key is removed, and a key list disjoint from the schema is a
no-op. -/
theorem removePropertiesFromSchema_spec_witness :
    (¬ "region" ∈ (removePropertiesFromSchema
      (.node "object" (some [("region", .node "string" none none none none),
        ("city", .node "string" none none none none)])
        (some ["region", "city"]) none none) ["region"]).propNames)
  ∧ removePropertiesFromSchema
      (.node "object" (some [("city", .node "string" none none none none)])
        (some ["city"]) none none) ["region"]
    = .node "object" (some [("city", .node "string" none none none none)])
        (some ["city"]) none none :=
  ⟨removePropertiesFromSchema_spec.2.1 _ ["region"] "region" (by decide),
   removePropertiesFromSchema_spec.2.2.1 _ ["region"] (by decide)⟩

/-! ## C6 — `addModelParameter` idempotence -/

/-- C6: `addModelField` is idempotent — applying it twice yields a shape
structurally equal to applying it once; a shape that already has a
`model` property is returned unchanged (neither overwritten nor
duplicated); otherwise the result gains a required `model` field of enum
type with one value per model-descriptor key (also from an absent
shape). -/
theorem addModelParameter_spec :
    (∀ (p : Option SchemaNode) (models : List AxModelEntry),
      addModelParameter (some (addModelParameter p models)) models
        = addModelParameter p models)
  ∧ (∀ (s : SchemaNode) (models : List AxModelEntry),
      "model" ∈ s.propNames → addModelParameter (some s) models = s)
  ∧ (∀ (s : SchemaNode) (models : List AxModelEntry),
      ¬ "model" ∈ s.propNames →
      (addModelParameter (some s) models).properties
          = some ((s.properties.getD []) ++ [("model", modelProperty models)])
        ∧ (addModelParameter (some s) models).required
          = some ((s.required.getD []) ++ ["model"])
        ∧ (modelProperty models).enumVals
          = some (models.map (fun m => m.key)))
  ∧ (∀ models : List AxModelEntry,
      (addModelParameter none models).properties
          = some [("model", modelProperty models)]
        ∧ (addModelParameter none models).required = some ["model"]) := by
  refine ⟨?_, addModelParameter_of_mem_model, ?_, ?_⟩
  · intro p models
    exact addModelParameter_of_mem_model _ models
      (mem_model_addModelParameter p models)
  · intro s models h
    have hb : addModelBase (some s) = s := rfl
    have hcond : ¬ "model" ∈ (addModelBase (some s)).propNames := by rwa [hb]
    unfold addModelParameter
    rw [if_neg hcond, hb]
    exact ⟨rfl, rfl, rfl⟩
  · intro models
    exact ⟨rfl, rfl⟩

/-- Witness for `addModelParameter_spec`: a shape already holding `model`
is unchanged, and a fresh empty shape gains the required `model` field. -/
theorem addModelParameter_spec_witness :
    addModelParameter
        (some (.node "object"
          (some [("model", .node "string" none none none none)])
          (some ["model"]) none none)) [⟨"k1", "m1", "fast"⟩]
      = .node "object" (some [("model", .node "string" none none none none)])
          (some ["model"]) none none
  ∧ (addModelParameter
        (some (.node "object" (some []) (some []) none none))
        [⟨"k1", "m1", "fast"⟩]).required
      = some ((SchemaNode.node "object" (some []) (some [])
          none none).required.getD [] ++ ["model"]) :=
  ⟨addModelParameter_spec.2.1 _ [⟨"k1", "m1", "fast"⟩] (by decide),
   (addModelParameter_spec.2.2.1 _ [⟨"k1", "m1", "fast"⟩] (by decide)).2.1⟩

/-! ## C7 — projection preserves the `required ⊆ properties` invariant -/

/-- C7: both schema projections preserve the SchemaNode invariant: when
`required` is a subset of the property names, the schema returned by
`removeFields` and the one returned by `addModelField` (on a present or
absent shape) satisfy the same inclusion — projection never leaves a
dangling required-but-absent field. -/
theorem projection_preserves_requiredSubset :
    (∀ (s : SchemaNode) (keys : List String), requiredSubset s →
      requiredSubset (removePropertiesFromSchema s keys))
  ∧ (∀ (s : SchemaNode) (models : List AxModelEntry), requiredSubset s →
      requiredSubset (addModelParameter (some s) models))
  ∧ (∀ models : List AxModelEntry,
      requiredSubset (addModelParameter none models)) := by
  refine ⟨?_, ?_, ?_⟩
  · intro s keys hs r hr
    have hreq : (removePropertiesFromSchema s keys).required
        = s.required.map (fun rs => rs.filter (fun x => ¬ x ∈ keys)) := rfl
    rw [hreq] at hr
    cases hsr : s.required with
    | none => rw [hsr] at hr; simp at hr
    | some rs =>
      rw [hsr] at hr
      have hr2 : r ∈ rs.filter (fun x => ¬ x ∈ keys) := hr
      rcases List.mem_filter.mp hr2 with ⟨hmem, hdec⟩
      have hnk : ¬ r ∈ keys := by simpa using hdec
      refine mem_propNames_removePropertiesFromSchema s keys r ?_ hnk
      exact hs r (by rw [hsr]; simpa using hmem)
  · intro s models hs
    by_cases h : "model" ∈ s.propNames
    · rw [addModelParameter_of_mem_model s models h]
      exact hs
    · intro r hr
      have hb : addModelBase (some s) = s := rfl
      have hcond : ¬ "model" ∈ (addModelBase (some s)).propNames := by
        rwa [hb]
      have hreq : (addModelParameter (some s) models).required
          = some (s.required.getD [] ++ ["model"]) := by
        unfold addModelParameter
        rw [if_neg hcond, hb]
        rfl
      have hprops : (addModelParameter (some s) models).propNames
          = s.propNames ++ ["model"] := by
        unfold addModelParameter
        rw [if_neg hcond, hb]
        unfold SchemaNode.propNames
        simp
      rw [hreq] at hr
      simp only [Option.getD_some] at hr
      rw [hprops]
      rcases List.mem_append.mp hr with h1 | h2
      · exact List.mem_append.mpr (Or.inl (hs r h1))
      · exact List.mem_append.mpr (Or.inr h2)
  · intro models r hr
    exact hr

/-- Witness for `projection_preserves_requiredSubset` at a concrete
schema with `required = properties = [region]`, projected by both
operations. -/
theorem projection_preserves_requiredSubset_witness :
    requiredSubset (removePropertiesFromSchema
      (.node "object" (some [("region", .node "string" none none none none)])
        (some ["region"]) none none) ["region"])
  ∧ requiredSubset (addModelParameter
      (some (.node "object"
        (some [("region", .node "string" none none none none)])
        (some ["region"]) none none)) [⟨"k1", "m1", "fast"⟩]) :=
  ⟨projection_preserves_requiredSubset.1 _ ["region"] (fun _r hr => hr),
   projection_preserves_requiredSubset.2.1 _ [⟨"k1", "m1", "fast"⟩]
     (fun _r hr => hr)⟩

/-! ## C8 — agent constructor validation -/

/-- C8: `AxAgent` construction fails with a validation error exactly when
the name is empty or shorter than 5 characters or the description is
empty or shorter than 20 (the empty string is shorter than both bounds);
it succeeds at the boundary lengths 5 and 20; and the thrown error
message names the offending field (`Agent name …` / `Agent
description …`). -/
theorem validateAgentConstruction_spec :
    (∀ name description : String,
      (validateAgentConstruction name description = .ok ())
        ↔ (5 ≤ name.length ∧ 20 ≤ description.length))
  ∧ (∀ name description : String,
      name.length = 5 → description.length = 20 →
      validateAgentConstruction name description = .ok ())
  ∧ (∀ name description : String, name.length < 5 →
      validateAgentConstruction name description
        = .error
          ("Agent name must be at least 10 characters (more descriptive): "
            ++ name))
  ∧ (∀ name description : String,
      5 ≤ name.length → description.length < 20 →
      validateAgentConstruction name description
        = .error
          ("Agent description must be at least 20 characters (explain in detail what the agent does): "
            ++ description)) := by
  have hiff : ∀ n d : String,
      (validateAgentConstruction n d = .ok ())
        ↔ (5 ≤ n.length ∧ 20 ≤ d.length) := by
    intro n d
    unfold validateAgentConstruction
    split_ifs with h1 h2
    · have hlen : n.length < 5 := by
        rcases h1 with he | hl
        · rw [he]; decide
        · exact hl
      constructor
      · intro h; exact h.elim
      · rintro ⟨h5, -⟩; exact absurd h5 (by omega)
    · have hd : d.length < 20 := by
        rcases h2 with he | hl
        · rw [he]; decide
        · exact hl
      constructor
      · intro h; exact h.elim
      · rintro ⟨-, h20⟩; exact absurd h20 (by omega)
    · push_neg at h1 h2
      exact ⟨fun _ => ⟨h1.2, h2.2⟩, fun _ => rfl⟩
  refine ⟨hiff, fun n d h5 h20 => (hiff n d).mpr ⟨by omega, by omega⟩,
    ?_, ?_⟩
  · intro n d h
    unfold validateAgentConstruction
    rw [if_pos (Or.inr h)]
  · intro n d h5 hd
    have hn : ¬ (n = "" ∨ n.length < 5) := by
      rintro (rfl | hl)
      · exact absurd h5 (by decide)
      · omega
    unfold validateAgentConstruction
    rw [if_neg hn, if_pos (Or.inr hd)]

/-- Witness for `validateAgentConstruction_spec`: boundary success with a
5-character name and a 20-character description, and the field-naming
error for a 3-character name. -/
theorem validateAgentConstruction_spec_witness :
    validateAgentConstruction "agent" "a description of 20."
      = .ok ()
  ∧ validateAgentConstruction "abc" "a description of 20."
      = .error
        ("Agent name must be at least 10 characters (more descriptive): "
          ++ "abc") :=
  ⟨validateAgentConstruction_spec.2.1 "agent" "a description of 20."
      (by decide) (by decide),
   validateAgentConstruction_spec.2.2.1 "abc" "a description of 20."
      (by decide)⟩

theorem mem_commonKeysOf {pik : List String} {params : SchemaNode}
    {k : String} :
    k ∈ commonKeysOf pik params
      ↔ (k ∈ pik ∧ k ∈ childKeysOf params ∧ k ≠ "model") := by
  constructor
  · intro h
    rcases List.mem_filter.mp h with ⟨h1, h2⟩
    rcases List.mem_filter.mp h1 with ⟨h3, h4⟩
    exact ⟨h3, by simpa using h4, by simpa using h2⟩
  · rintro ⟨h1, h2, h3⟩
    exact List.mem_filter.mpr
      ⟨List.mem_filter.mpr ⟨h1, by simpa using h2⟩, by simpa using h3⟩

theorem mem_injectionKeysOf {pik excl : List String} {params : SchemaNode}
    {k : String} :
    k ∈ injectionKeysOf pik params excl
      ↔ (k ∈ commonKeysOf pik params ∧ ¬ k ∈ excl) := by
  simp [injectionKeysOf, List.mem_filter]

/-! ## C4 — passthrough projection and injection -/

/-- C4: for a child callable sharing input field names with the parent:
an excluded common field is neither removed from the child's parameter
shape nor auto-injected (the merged arguments keep the caller's value
for it); every injection key (non-excluded common field other than
`model`) is removed from the projected shape; and the wrapped invocation
merges the caller's arguments with the parent's values for exactly the
injection keys, the parent's value winning whenever the parent has one.
(The original callable is never mutated: the embedding is pure and the
source builds a fresh object via spread.) -/
theorem passthrough_projection_spec :
    (∀ {V O R : Type} (cf : AxFunction V O R) (pv : List (String × V))
       (pik : List String) (ml : Option (List AxModelEntry))
       (opts : ProcessOptions) (params : SchemaNode) (k : String),
      cf.parameters = some params →
      k ∈ commonKeysOf pik params →
      k ∈ opts.excludeFieldsFromPassthrough →
      ∃ q, (processChildAgentFunction cf pv pik ml opts).parameters = some q
        ∧ k ∈ q.propNames)
  ∧ (∀ {V O R : Type} (cf : AxFunction V O R) (pv : List (String × V))
       (pik : List String) (ml : Option (List AxModelEntry))
       (opts : ProcessOptions) (params : SchemaNode) (k : String),
      cf.parameters = some params →
      k ∈ injectionKeysOf pik params opts.excludeFieldsFromPassthrough →
      ∃ q, (processChildAgentFunction cf pv pik ml opts).parameters = some q
        ∧ ¬ k ∈ q.propNames)
  ∧ (∀ {V O R : Type} (cf : AxFunction V O R) (pv : List (String × V))
       (pik : List String) (ml : Option (List AxModelEntry))
       (opts : ProcessOptions) (params : SchemaNode),
      cf.parameters = some params →
      injectionKeysOf pik params opts.excludeFieldsFromPassthrough ≠ [] →
      ∀ (childArgs : List (String × V)) (o : O),
        (processChildAgentFunction cf pv pik ml opts).func childArgs o
          = cf.func (spreadMerge childArgs (pick pv
              (injectionKeysOf pik params
                opts.excludeFieldsFromPassthrough))) o)
  ∧ (∀ {V : Type} (pv childArgs : List (String × V)) (injKeys : List String)
       (k : String) (v : V),
      k ∈ injKeys → objLookup k pv = some v →
      objLookup k (spreadMerge childArgs (pick pv injKeys)) = some v)
  ∧ (∀ {V : Type} (pv childArgs : List (String × V)) (injKeys : List String)
       (k : String),
      ¬ k ∈ injKeys →
      objLookup k (spreadMerge childArgs (pick pv injKeys))
        = objLookup k childArgs) := by
  refine ⟨?_, ?_, ?_, ?_, ?_⟩
  · intro V O R cf pv pik ml opts params k hp hcommon hexcl
    have hchild : k ∈ params.propNames := (mem_commonKeysOf.mp hcommon).2.1
    rw [processChildAgentFunction_some pv pik ml opts hp]
    by_cases hne : injectionKeysOf pik params
        opts.excludeFieldsFromPassthrough = []
    · rw [processWithParams_neg _ _ _ _ _ hne]
      exact ⟨params, hp, hchild⟩
    · rw [processWithParams_pos _ _ _ _ _ hne]
      refine ⟨_, rfl, ?_⟩
      refine mem_propNames_removePropertiesFromSchema params _ k hchild ?_
      intro hin
      exact (mem_injectionKeysOf.mp hin).2 hexcl
  · intro V O R cf pv pik ml opts params k hp hinj
    have hne : injectionKeysOf pik params
        opts.excludeFieldsFromPassthrough ≠ [] :=
      List.ne_nil_of_mem hinj
    rw [processChildAgentFunction_some pv pik ml opts hp,
      processWithParams_pos _ _ _ _ _ hne]
    exact ⟨_, rfl,
      not_mem_propNames_removePropertiesFromSchema params _ k hinj⟩
  · intro V O R cf pv pik ml opts params hp hne childArgs o
    rw [processChildAgentFunction_some pv pik ml opts hp,
      processWithParams_pos _ _ _ _ _ hne]
  · intro V pv childArgs injKeys k v hk hv
    rw [objLookup_spreadMerge, objLookup_pick]
    simp [hk, hv]
  · intro V pv childArgs injKeys k hk
    rw [objLookup_spreadMerge, objLookup_pick]
    simp [hk]

/-- Witness for `passthrough_projection_spec`: parent fields
`region, city` with `city` excluded — `city` survives in the child's
shape, `region` is removed, the parent's `region` value overrides the
caller's, and the caller's `city` value survives the merge. -/
theorem passthrough_projection_spec_witness :
    (∃ q, (processChildAgentFunction
        (⟨"childAgent", "desc",
          some (.node "object"
            (some [("region", .node "string" none none none none),
              ("city", .node "string" none none none none)])
            (some ["region", "city"]) none none),
          fun _ _ => ()⟩ : AxFunction String Unit Unit)
        [("region", "PARENT")] ["region", "city"] none
        ⟨false, false, ["city"], true⟩).parameters = some q
      ∧ "city" ∈ q.propNames)
  ∧ (∃ q, (processChildAgentFunction
        (⟨"childAgent", "desc",
          some (.node "object"
            (some [("region", .node "string" none none none none),
              ("city", .node "string" none none none none)])
            (some ["region", "city"]) none none),
          fun _ _ => ()⟩ : AxFunction String Unit Unit)
        [("region", "PARENT")] ["region", "city"] none
        ⟨false, false, ["city"], true⟩).parameters = some q
      ∧ ¬ "region" ∈ q.propNames)
  ∧ objLookup "region" (spreadMerge [("region", "CALLER")]
      (pick [("region", "PARENT")] ["region"])) = some "PARENT"
  ∧ objLookup "city" (spreadMerge [("city", "CALLER")]
      (pick [("region", "PARENT")] ["region"])) = some "CALLER" := by
  refine ⟨?_, ?_, ?_, ?_⟩
  · exact passthrough_projection_spec.1 _ _ _ none _ _ "city" rfl
      (by decide) (by decide)
  · exact passthrough_projection_spec.2.1 _ _ _ none _ _ "region" rfl
      (by decide)
  · exact passthrough_projection_spec.2.2.2.1 _ _ ["region"] "region"
      "PARENT" (by decide) (by decide)
  · have h := passthrough_projection_spec.2.2.2.2
      [("region", "PARENT")] [("city", "CALLER")] ["region"] "city"
      (by decide)
    rw [h]
    decide

/-! ## C9 — `pick` skips keys absent from the parent's values -/

/-- C9 (implicit): in the wrapped invocation's merge, an injection key
absent from the parent's input-values object is not copied by `pick`, so
the caller-supplied argument for that key is preserved rather than
overwritten with an undefined parent value; parent precedence applies
only to injection keys the parent's values actually contain — and the
wrapped invocation applies exactly this merge. -/
theorem pick_absent_parent_key_spec :
    (∀ {V : Type} (pv : List (String × V)) (injKeys : List String)
       (k : String),
      objLookup k pv = none → objLookup k (pick pv injKeys) = none)
  ∧ (∀ {V : Type} (pv childArgs : List (String × V))
       (injKeys : List String) (k : String),
      k ∈ injKeys → objLookup k pv = none →
      objLookup k (spreadMerge childArgs (pick pv injKeys))
        = objLookup k childArgs)
  ∧ (∀ {V : Type} (pv childArgs : List (String × V))
       (injKeys : List String) (k : String) (v : V),
      k ∈ injKeys → objLookup k pv = some v →
      objLookup k (spreadMerge childArgs (pick pv injKeys)) = some v)
  ∧ (∀ {V O R : Type} (cf : AxFunction V O R) (pv : List (String × V))
       (pik : List String) (ml : Option (List AxModelEntry))
       (opts : ProcessOptions) (params : SchemaNode),
      cf.parameters = some params →
      injectionKeysOf pik params opts.excludeFieldsFromPassthrough ≠ [] →
      ∀ (childArgs : List (String × V)) (o : O),
        (processChildAgentFunction cf pv pik ml opts).func childArgs o
          = cf.func (spreadMerge childArgs (pick pv
              (injectionKeysOf pik params
                opts.excludeFieldsFromPassthrough))) o) := by
  refine ⟨?_, ?_, ?_, ?_⟩
  · intro V pv injKeys k hk
    rw [objLookup_pick]
    by_cases hin : k ∈ injKeys
    · simp [hin, hk]
    · simp [hin]
  · intro V pv childArgs injKeys k hin hk
    rw [objLookup_spreadMerge, objLookup_pick]
    simp [hin, hk]
  · intro V pv childArgs injKeys k v hin hv
    rw [objLookup_spreadMerge, objLookup_pick]
    simp [hin, hv]
  · intro V O R cf pv pik ml opts params hp hne childArgs o
    rw [processChildAgentFunction_some pv pik ml opts hp,
      processWithParams_pos _ _ _ _ _ hne]

/-- Witness for `pick_absent_parent_key_spec`: the parent's values lack
`region`, so the caller's `region` argument survives the merge. -/
theorem pick_absent_parent_key_spec_witness :
    objLookup "region" (pick ([("other", "x")] : List (String × String))
      ["region"]) = none
  ∧ objLookup "region" (spreadMerge [("region", "CALLER")]
      (pick ([("other", "x")] : List (String × String)) ["region"]))
    = objLookup "region" [("region", "CALLER")] :=
  ⟨pick_absent_parent_key_spec.1 [("other", "x")] ["region"] "region"
      (by decide),
   pick_absent_parent_key_spec.2.1 [("other", "x")] [("region", "CALLER")]
      ["region"] "region" (by decide) (by decide)⟩

/-! ## C1 — model-field injection happens only without a parameter
schema (claim corrected) -/

/-- C1 counterexample: a child callable WITH a parameter schema, empty
injection-key set, a model list present, routing not disabled, feature
flag set.  The claim asserts the returned callable's shape gains the
required `model` enum field; the code returns the callable unchanged —
the early `return` inside the `if (processedFunction.parameters)` block
(part_000 line 101) makes the routing branch unreachable. -/
theorem model_injection_claim_counterexample :
    processChildAgentFunction
        (⟨"childAgent", "a child agent",
          some (.node "object"
            (some [("topic", .node "string" none none none none)])
            (some ["topic"]) none none),
          fun _ _ => ()⟩ : AxFunction Unit Unit Unit)
        [] ["question"] (some [⟨"gemini-flash", "gemini-2.0-flash", "fast"⟩])
        ⟨false, false, [], true⟩
      = ⟨"childAgent", "a child agent",
          some (.node "object"
            (some [("topic", .node "string" none none none none)])
            (some ["topic"]) none none),
          fun _ _ => ()⟩
  ∧ ¬ "model" ∈ ((processChildAgentFunction
        (⟨"childAgent", "a child agent",
          some (.node "object"
            (some [("topic", .node "string" none none none none)])
            (some ["topic"]) none none),
          fun _ _ => ()⟩ : AxFunction Unit Unit Unit)
        [] ["question"] (some [⟨"gemini-flash", "gemini-2.0-flash", "fast"⟩])
        ⟨false, false, [], true⟩).parameters.getD
          (.node "object" none none none none)).propNames := by
  exact ⟨rfl, by decide⟩

/-- C1 (amended): for a child callable with a parameter schema,
`processChildAgentFunction` never adds the model field — with empty
injection keys it returns the callable unchanged even when a model list
is present, routing is not disabled and the feature flag is true; the
required `model` enum field is added only when the child callable has no
parameter schema; so passthrough rewriting and model-field injection
remain mutually exclusive per call. -/
theorem model_injection_only_without_params :
    (∀ {V O R : Type} (cf : AxFunction V O R) (pv : List (String × V))
       (pik : List String) (ml : Option (List AxModelEntry))
       (opts : ProcessOptions) (params : SchemaNode),
      cf.parameters = some params →
      injectionKeysOf pik params opts.excludeFieldsFromPassthrough = [] →
      processChildAgentFunction cf pv pik ml opts = cf)
  ∧ (∀ {V O R : Type} (cf : AxFunction V O R) (pv : List (String × V))
       (pik : List String) (models : List AxModelEntry)
       (opts : ProcessOptions),
      cf.parameters = none →
      opts.disableSmartModelRouting = false →
      opts.canConfigureSmartModelRouting = true →
      (processChildAgentFunction cf pv pik (some models) opts).parameters
          = some (addModelParameter none models)
        ∧ "model" ∈ (addModelParameter none models).propNames)
  ∧ (∀ {V O R : Type} (cf : AxFunction V O R) (pv : List (String × V))
       (pik : List String) (ml : Option (List AxModelEntry))
       (opts : ProcessOptions) (params q : SchemaNode),
      cf.parameters = some params →
      ¬ "model" ∈ params.propNames →
      (processChildAgentFunction cf pv pik ml opts).parameters = some q →
      ¬ "model" ∈ q.propNames) := by
  refine ⟨?_, ?_, ?_⟩
  · intro V O R cf pv pik ml opts params hp he
    rw [processChildAgentFunction_some pv pik ml opts hp,
      processWithParams_neg _ _ _ _ _ he]
  · intro V O R cf pv pik models opts hp hd hc
    rw [processChildAgentFunction_none pv pik (some models) opts hp]
    refine ⟨?_, mem_model_addModelParameter none models⟩
    simp [processNoParams, hd, hc]
  · intro V O R cf pv pik ml opts params q hp hm hq
    by_cases hne : injectionKeysOf pik params
        opts.excludeFieldsFromPassthrough = []
    · rw [processChildAgentFunction_some pv pik ml opts hp,
        processWithParams_neg _ _ _ _ _ hne, hp] at hq
      obtain rfl := Option.some.inj hq
      exact hm
    · rw [processChildAgentFunction_some pv pik ml opts hp,
        processWithParams_pos _ _ _ _ _ hne] at hq
      have hq2 : some (removePropertiesFromSchema params
          (injectionKeysOf pik params opts.excludeFieldsFromPassthrough))
            = some q := hq
      obtain rfl := Option.some.inj hq2
      intro hmem
      rw [propNames_removePropertiesFromSchema] at hmem
      exact hm (List.mem_filter.mp hmem).1

/-- Witness for `model_injection_only_without_params`: a child with a
parameter schema and no common fields is returned unchanged; a child
without a parameter schema gains the `model` field. -/
theorem model_injection_only_without_params_witness :
    processChildAgentFunction
        (⟨"childB", "another child agent",
          some (.node "object"
            (some [("topic", .node "string" none none none none)])
            (some ["topic"]) none none),
          fun _ _ => ()⟩ : AxFunction Unit Unit Unit)
        [] ["question"] (some [⟨"k1", "m1", "fast"⟩]) ⟨false, false, [], true⟩
      = ⟨"childB", "another child agent",
          some (.node "object"
            (some [("topic", .node "string" none none none none)])
            (some ["topic"]) none none),
          fun _ _ => ()⟩
  ∧ (processChildAgentFunction
        (⟨"childC", "a schemaless child", none,
          fun _ _ => ()⟩ : AxFunction Unit Unit Unit)
        [] ["question"] (some [⟨"k1", "m1", "fast"⟩])
        ⟨false, false, [], true⟩).parameters
      = some (addModelParameter none [⟨"k1", "m1", "fast"⟩]) :=
  ⟨model_injection_only_without_params.1 _ [] ["question"]
      (some [⟨"k1", "m1", "fast"⟩]) ⟨false, false, [], true⟩ _ rfl rfl,
   (model_injection_only_without_params.2.1 _ [] ["question"]
      [⟨"k1", "m1", "fast"⟩] ⟨false, false, [], true⟩ rfl rfl rfl).1⟩

/-! ## C2 — the syntax-repair loop -/

/-- C2 (code-bug evidence): the repair loop of `_generateHandler` as the
code executes it.  With a decoder that always fails, all three decode
attempts receive the SAME raw value (`"not json"` in every recorded
parsing error) with no feedback completion in between; the single
`fixSyntax` completion call happens only after the third failure and its
response (`"FIXED"`) is dead — assigned to `value` just before the loop
exits and throws "Unable to fix result syntax".  With a decoder that
fails twice and succeeds on the 3rd call, the loop returns the decoded
value with exactly 2 parsing errors and zero feedback calls — feedback
never runs between attempts, contrary to the claim. -/
theorem syntaxRepair_observed_behavior :
    generateHandlerRepair
        (fun _ _ => (Except.error "Expected JSON" : Except String String))
        (fun _ => some "FIXED") "not json"
      = (.error "Unable to fix result syntax",
         [("Expected JSON", "not json"), ("Expected JSON", "not json"),
          ("Expected JSON", "not json")], 1)
  ∧ generateHandlerRepair
        (fun i v =>
          if i < 2 then (Except.error "bad" : Except String String)
          else .ok v)
        (fun _ => none) "raw"
      = (.ok "raw", [("bad", "raw"), ("bad", "raw")], 0) :=
  ⟨rfl, rfl⟩

/-! ## C3 — terminal conditions of the with-functions loop -/

theorem dupCheck_empty (prev : Option String) : dupCheck prev "" = false := by
  cases prev with
  | none => rfl
  | some pv =>
    by_cases h : pv = ""
    · subst h
      rfl
    · have hb : ("" == pv) = false := beq_eq_false_iff_ne.mpr
        (fun he => h he.symm)
      show (pv != "" && ("" == pv)) = false
      rw [hb, Bool.and_false]

theorem dupCheck_self (pv : String) (h : pv ≠ "") :
    dupCheck (some pv) pv = true := by
  show (pv != "" && (pv == pv)) = true
  have hb : (pv == "") = false := beq_eq_false_iff_ne.mpr h
  simp [bne, hb]

theorem dupCheck_of_ne (pv value : String) (h : value ≠ pv) :
    dupCheck (some pv) value = false := by
  show (pv != "" && (value == pv)) = false
  rw [beq_eq_false_iff_ne.mpr h, Bool.and_false]

/-- One unfolding of the step loop at positive remaining count. -/
theorem genFnLoop_succ (responses : Nat → Option String)
    (processFn : Nat → String → FuncExec)
    (maxSteps remaining i : Nat) (prev : Option String) (mem : List String)
    (execs : List FuncExec) :
    genFnLoop responses processFn maxSteps (remaining + 1) i prev mem execs
      = if dupCheck prev (stepValue responses i) then
          .error "Duplicate response received"
        else if (stepValue responses i).length = 0 then
          .error "Empty response received"
        else if (processFn i (stepValue responses i)).name = "finalResult"
        then
          .ok ((processFn i (stepValue responses i)).result.getD "",
            mem ++ [memEntry (stepValue responses i)
              (processFn i (stepValue responses i))],
            execs ++ [processFn i (stepValue responses i)])
        else
          genFnLoop responses processFn maxSteps remaining (i + 1)
            (some (stepValue responses i))
            (mem ++ [memEntry (stepValue responses i)
              (processFn i (stepValue responses i))])
            (execs ++ [processFn i (stepValue responses i)]) := rfl

theorem string_length_eq_zero_iff (s : String) : s.length = 0 ↔ s = "" := by
  cases s with
  | mk data =>
    constructor
    · intro h
      have hd : data = [] := List.length_eq_zero.mp h
      rw [hd]
    · intro h
      have hd : data = [] := by
        have h2 := congrArg String.data h
        simpa using h2
      show data.length = 0
      rw [hd]
      rfl

theorem genFnLoop_exhausts (responses : Nat → Option String)
    (processFn : Nat → String → FuncExec) (maxSteps : Nat)
    (H1 : ∀ j, stepValue responses j ≠ "")
    (H2 : ∀ j, stepValue responses (j + 1) ≠ stepValue responses j)
    (H3 : ∀ j,
      (processFn j (stepValue responses j)).name ≠ "finalResult") :
    ∀ (remaining i : Nat) (prev : Option String) (mem : List String)
      (execs : List FuncExec),
      dupCheck prev (stepValue responses i) = false →
      genFnLoop responses processFn maxSteps remaining i prev mem execs
        = .error ("max " ++ toString maxSteps ++ " steps allowed") := by
  intro remaining
  induction remaining with
  | zero =>
    intro i prev mem execs hdup
    rfl
  | succ n ih =>
    intro i prev mem execs hdup
    have hlen : ¬ (stepValue responses i).length = 0 :=
      fun h => H1 i ((string_length_eq_zero_iff _).mp h)
    rw [genFnLoop_succ, hdup]
    rw [if_neg (by decide), if_neg hlen, if_neg (H3 i)]
    exact ih (i + 1) (some (stepValue responses i)) _ _
      (dupCheck_of_ne _ _ (H2 i))

/-- C3: a step whose trimmed completion result is empty fails fatally
with 'Empty response received'; a step identical to the (non-empty)
immediately preceding result fails fatally with 'Duplicate response
received'; completing all 20 default steps with neither of those nor a
`finalResult` invocation fails fatally with 'max 20 steps allowed'; and
a `finalResult` invocation terminates the loop successfully with that
function's output. -/
theorem generateWithFunctions_terminal_conditions :
    (∀ (responses : Nat → Option String)
       (processFn : Nat → String → FuncExec)
       (maxSteps remaining i : Nat) (prev : Option String)
       (mem : List String) (execs : List FuncExec),
      stepValue responses i = "" →
      genFnLoop responses processFn maxSteps (remaining + 1) i prev mem
          execs
        = .error "Empty response received")
  ∧ (∀ (responses : Nat → Option String)
       (processFn : Nat → String → FuncExec)
       (maxSteps remaining i : Nat) (pv : String) (mem : List String)
       (execs : List FuncExec),
      pv ≠ "" → stepValue responses i = pv →
      genFnLoop responses processFn maxSteps (remaining + 1) i (some pv)
          mem execs
        = .error "Duplicate response received")
  ∧ (∀ (responses : Nat → Option String)
       (processFn : Nat → String → FuncExec),
      (∀ j, stepValue responses j ≠ "") →
      (∀ j, stepValue responses (j + 1) ≠ stepValue responses j) →
      (∀ j, (processFn j (stepValue responses j)).name ≠ "finalResult") →
      generateWithFunctions responses processFn 20
        = .error "max 20 steps allowed")
  ∧ (∀ (responses : Nat → Option String)
       (processFn : Nat → String → FuncExec)
       (maxSteps remaining i : Nat) (prev : Option String)
       (mem : List String) (execs : List FuncExec),
      dupCheck prev (stepValue responses i) = false →
      stepValue responses i ≠ "" →
      (processFn i (stepValue responses i)).name = "finalResult" →
      genFnLoop responses processFn maxSteps (remaining + 1) i prev mem
          execs
        = .ok ((processFn i (stepValue responses i)).result.getD "",
            mem ++ [memEntry (stepValue responses i)
              (processFn i (stepValue responses i))],
            execs ++ [processFn i (stepValue responses i)])) := by
  refine ⟨?_, ?_, ?_, ?_⟩
  · intro responses processFn maxSteps remaining i prev mem execs h
    rw [genFnLoop_succ, h, dupCheck_empty]
    simp
  · intro responses processFn maxSteps remaining i pv mem execs hpv h
    rw [genFnLoop_succ, h, dupCheck_self pv hpv]
    simp
  · intro responses processFn H1 H2 H3
    exact genFnLoop_exhausts responses processFn 20 H1 H2 H3 20 0 none [] []
      rfl
  · intro responses processFn maxSteps remaining i prev mem execs hdup
      hne hfinal
    have hlen : ¬ (stepValue responses i).length = 0 :=
      fun h => hne ((string_length_eq_zero_iff _).mp h)
    rw [genFnLoop_succ, hdup]
    rw [if_neg (by decide), if_neg hlen, if_pos hfinal]

/-- Witness for `generateWithFunctions_terminal_conditions` at concrete
oracles: a whitespace-only response, a repeated response, twenty
alternating non-final steps, and a `finalResult` invocation. -/
theorem generateWithFunctions_terminal_conditions_witness :
    genFnLoop (fun _ => some "  ") (fun _ _ => ⟨"noop", none⟩) 20 (19 + 1)
        0 none [] []
      = .error "Empty response received"
  ∧ genFnLoop (fun _ => some "same") (fun _ _ => ⟨"noop", none⟩) 20
        (18 + 1) 1 (some "same") [] []
      = .error "Duplicate response received"
  ∧ generateWithFunctions
        (fun j => some (if j % 2 = 0 then "even" else "odd"))
        (fun _ _ => ⟨"noop", none⟩) 20
      = .error "max 20 steps allowed"
  ∧ genFnLoop (fun _ => some "go") (fun _ _ => ⟨"finalResult", some "OUT"⟩)
        20 (19 + 1) 0 none [] []
      = .ok ("OUT", ["\ngo\nResult: OUT"],
          [⟨"finalResult", some "OUT"⟩]) := by
  refine ⟨?_, ?_, ?_, ?_⟩
  · exact generateWithFunctions_terminal_conditions.1 _ _ 20 19 0 none [] []
      (by decide)
  · exact generateWithFunctions_terminal_conditions.2.1 _ _ 20 18 1 "same"
      [] [] (by decide) (by decide)
  · refine generateWithFunctions_terminal_conditions.2.2.1 _ _ ?_ ?_ ?_
    · intro j
      by_cases h : j % 2 = 0
      · simp only [stepValue, h, if_pos]
        decide
      · simp only [stepValue, h, if_neg]
        decide
    · intro j
      by_cases h : j % 2 = 0
      · have h2 : (j + 1) % 2 ≠ 0 := by omega
        simp only [stepValue, h, h2, if_pos, if_neg]
        decide
      · have h2 : (j + 1) % 2 = 0 := by omega
        simp only [stepValue, h, h2, if_pos, if_neg]
        decide
    · intro j
      decide
  · exact generateWithFunctions_terminal_conditions.2.2.2 _ _ 20 19 0 none
      [] [] rfl (by decide) (by decide)

/-! ## C10 — a run mutates the stored function list -/

theorem runEffect_step (c : PromptConfig) (fs : List FuncDecl)
    (schema : SchemaNode) (hf : c.functions = some fs)
    (hs : c.responseSchema = some schema) :
    runWithFunctionsConfEffect c
      = { c with functions := some (fs ++ [finalResultFunc schema]) } := by
  obtain ⟨ss, fns, kv, rs, dbg⟩ := c
  obtain rfl : fns = some fs := hf
  obtain rfl : rs = some schema := hs
  rfl

theorem runEffect_responseSchema (c : PromptConfig) :
    (runWithFunctionsConfEffect c).responseSchema = c.responseSchema := by
  obtain ⟨ss, fns, kv, rs, dbg⟩ := c
  cases rs with
  | none => rfl
  | some schema =>
    cases fns with
    | none => rfl
    | some fs => rfl

theorem runEffect_iterate_responseSchema (n : Nat) (c : PromptConfig) :
    ((runWithFunctionsConfEffect)^[n] c).responseSchema
      = c.responseSchema := by
  induction n generalizing c with
  | zero => rfl
  | succ m ih =>
    rw [Function.iterate_succ_apply, ih, runEffect_responseSchema]

/-- C10 (implicit): when callables are configured and an output schema is
declared, each `_generateWithFunctions` run appends one more synthetic
`finalResult` entry to the STORED configured-functions array (the shallow
config copy aliases that array), so `n` runs grow it by `n` entries
instead of rebuilding it per run; every other stored configuration field
is unchanged by a run. -/
theorem run_grows_stored_functions :
    (∀ (c : PromptConfig) (fs : List FuncDecl) (schema : SchemaNode),
      c.functions = some fs → c.responseSchema = some schema →
      (runWithFunctionsConfEffect c).functions
          = some (fs ++ [finalResultFunc schema])
        ∧ (runWithFunctionsConfEffect c).stopSequences = c.stopSequences
        ∧ (runWithFunctionsConfEffect c).responseKeyValue
          = c.responseKeyValue
        ∧ (runWithFunctionsConfEffect c).responseSchema = c.responseSchema
        ∧ (runWithFunctionsConfEffect c).debug = c.debug)
  ∧ (∀ (c : PromptConfig) (fs : List FuncDecl) (schema : SchemaNode)
       (n : Nat),
      c.functions = some fs → c.responseSchema = some schema →
      ((runWithFunctionsConfEffect)^[n] c).functions
        = some (fs ++ List.replicate n (finalResultFunc schema))) := by
  constructor
  · intro c fs schema hf hs
    rw [runEffect_step c fs schema hf hs]
    exact ⟨rfl, rfl, rfl, rfl, rfl⟩
  · intro c fs schema n
    induction n generalizing c fs with
    | zero =>
      intro hf hs
      simpa using hf
    | succ m ih =>
      intro hf hs
      rw [Function.iterate_succ_apply']
      have hfm : ((runWithFunctionsConfEffect)^[m] c).functions
          = some (fs ++ List.replicate m (finalResultFunc schema)) :=
        ih c fs hf hs
      have hsm : ((runWithFunctionsConfEffect)^[m] c).responseSchema
          = some schema := by
        rw [runEffect_iterate_responseSchema]
        exact hs
      rw [runEffect_step _ _ _ hfm hsm]
      show some ((fs ++ List.replicate m (finalResultFunc schema))
          ++ [finalResultFunc schema]) = _
      rw [List.append_assoc, ← List.replicate_succ' m (finalResultFunc schema)]

/-- Witness for `run_grows_stored_functions`: a concrete stored config
with one function and a declared schema gains one `finalResult` entry per
run; three runs append three. -/
theorem run_grows_stored_functions_witness :
    (runWithFunctionsConfEffect
        ⟨["stop"], some [⟨"fnA", "does A", none⟩], false,
          some (.node "object" (some []) (some []) none none), false⟩).functions
      = some ([⟨"fnA", "does A", none⟩]
          ++ [finalResultFunc (.node "object" (some []) (some []) none none)])
  ∧ ((runWithFunctionsConfEffect)^[3]
        ⟨["stop"], some [⟨"fnA", "does A", none⟩], false,
          some (.node "object" (some []) (some []) none none), false⟩).functions
      = some ([⟨"fnA", "does A", none⟩]
          ++ List.replicate 3 (finalResultFunc
              (.node "object" (some []) (some []) none none))) :=
  ⟨(run_grows_stored_functions.1 _ [⟨"fnA", "does A", none⟩]
      (.node "object" (some []) (some []) none none) rfl rfl).1,
   run_grows_stored_functions.2 _ [⟨"fnA", "does A", none⟩]
      (.node "object" (some []) (some []) none none) 3 rfl rfl⟩

end Ax
